import Mathlib

/-!
Verification of the `ScaleOperation` command from `UM/Operations/ScaleOperation.py`
(the Uranium scene-graph scale operation).

The Python code is embedded shallowly over exact rationals (`ℚ` models the
floating-point values; all branching in the source is on comparisons and
exact arithmetic, which `ℚ` reproduces faithfully).  Python operations that
can raise (`ZeroDivisionError` from `x / 0.0`) are embedded as `Option`-valued
functions returning `none` on the raising path.

The scene node (`UM/Scene/SceneNode.py`) is an external collaborator that is
not part of the verified source; it is modelled from the specification's
description of a `TransformableNode` (a parent-less node, so Local, Parent and
World spaces coincide).
-/

/-- A 3-component vector of exact rationals, modelling `UM.Math.Vector`. -/
@[ext]
structure V3 where
  x : ℚ
  y : ℚ
  z : ℚ
  deriving DecidableEq, Repr

namespace V3

/-- Component-wise addition, modelling `Vector.__add__`. -/
instance : Add V3 := ⟨fun a b => ⟨a.x + b.x, a.y + b.y, a.z + b.z⟩⟩

/-- Component-wise multiplication, modelling `Vector.__mul__` with a vector. -/
instance : Mul V3 := ⟨fun a b => ⟨a.x * b.x, a.y * b.y, a.z * b.z⟩⟩

/-- Scalar multiplication, modelling `Vector.__mul__`/`__rmul__` with a scalar. -/
instance : SMul ℚ V3 := ⟨fun r a => ⟨r * a.x, r * a.y, r * a.z⟩⟩

/-- Component-wise negation, modelling `Vector.__neg__`. -/
instance : Neg V3 := ⟨fun a => ⟨-a.x, -a.y, -a.z⟩⟩

theorem add_def (a b : V3) : a + b = ⟨a.x + b.x, a.y + b.y, a.z + b.z⟩ := rfl

theorem mul_def (a b : V3) : a * b = ⟨a.x * b.x, a.y * b.y, a.z * b.z⟩ := rfl

theorem smul_def (r : ℚ) (a : V3) : r • a = ⟨r * a.x, r * a.y, r * a.z⟩ := rfl

theorem neg_def (a : V3) : -a = ⟨-a.x, -a.y, -a.z⟩ := rfl

end V3

/-- The transform space argument of the node operations
(`SceneNode.TransformSpace`). -/
inductive TransformSpace where
  | Local
  | Parent
  | World
  deriving DecidableEq, Repr

/-- Modelled from the spec: the observable local-transform state of a
`TransformableNode` — its position (translation) and per-axis scale.  The
spec's `Transform` snapshot is this whole record.  Rotation is omitted: the
scale operation never touches it, and the spec's node interface (§6) only
exposes transform snapshot, scale and incremental scale. -/
@[ext]
structure NodeState where
  position : V3
  scale : V3
  deriving DecidableEq, Repr

namespace NodeState

/-- Modelled from the spec: `TransformableNode.getLocalTransform` returns the
node's full local transform snapshot. -/
def getLocalTransformation (n : NodeState) : NodeState := n

/-- Modelled from the spec: `TransformableNode.setTransform` overwrites the
node's full local transform with the snapshot. -/
def setTransformation (_ : NodeState) (t : NodeState) : NodeState := t

/-- Modelled from the spec: `TransformableNode.getScale` returns the node's
scale vector. -/
def getScale (n : NodeState) : V3 := n.scale

/-- Modelled from the spec: `TransformableNode.setScale` replaces the node's
scale vector (for a parent-less node every transform space coincides, so the
space argument is irrelevant). -/
def setScale (n : NodeState) (s : V3) (_ : TransformSpace) : NodeState :=
  { n with scale := s }

/-- Modelled from the spec: `TransformableNode.setPosition` replaces the
node's position (translation component). -/
def setPosition (n : NodeState) (p : V3) : NodeState :=
  { n with position := p }

/-- Modelled from the spec: `TransformableNode.scaleBy` (`SceneNode.scale`)
applies an incremental per-axis scale about the origin of the given space;
for a parent-less node, scaling in Parent or World space multiplies both the
scale and the position component-wise by the factor. -/
def scaleBy (n : NodeState) (f : V3) (_ : TransformSpace) : NodeState :=
  { position := f * n.position, scale := f * n.scale }

end NodeState

/-- Round-half-to-even of a rational to an integer (Python's `round`
semantics on the exact value). -/
def roundHalfEven (q : ℚ) : ℤ :=
  let f := ⌊q⌋
  let r := q - f
  if r < 1/2 then f
  else if 1/2 < r then f + 1
  else if f % 2 = 0 then f else f + 1

/-- `round(q, 2)`: round to 2 decimal places, half to even. -/
def roundTo2 (q : ℚ) : ℚ := (roundHalfEven (q * 100) : ℚ) / 100

/-- The state of a `ScaleOperation` object: target node (by identity),
the `_old_transformation` snapshot, the mode flags, pivot, snap flag,
scale vector and minimum scale. -/
structure ScaleOperation where
  node : ℕ
  old_transformation : NodeState
  set_scale : Bool
  add_scale : Bool
  relative_scale : Bool
  scale_around_point : V3
  snap : Bool
  scale : V3
  min_scale : ℚ
  deriving DecidableEq, Repr

namespace ScaleOperation

/-- `ScaleOperation.__init__`: captures `node.getLocalTransformation()` into
`_old_transformation`, stores the keyword flags (defaulting as in the
source), the pivot, the snap flag, the scale vector, and sets
`_min_scale = 0.01`.  `nodeId` is the identity of the target node and
`nodeNow` its state at construction time. -/
def mk' (nodeId : ℕ) (nodeNow : NodeState) (scale : V3)
    (set_scale add_scale relative_scale : Bool := false)
    (scale_around_point : V3 := ⟨0, 0, 0⟩) (snap : Bool := false) :
    ScaleOperation :=
  { node := nodeId
    old_transformation := nodeNow.getLocalTransformation
    set_scale := set_scale
    add_scale := add_scale
    relative_scale := relative_scale
    scale_around_point := scale_around_point
    snap := snap
    scale := scale
    min_scale := 1/100 }

/-- `ScaleOperation.undo`: `self._node.setTransformation(self._old_transformation)`. -/
def undo (op : ScaleOperation) (n : NodeState) : NodeState :=
  n.setTransformation op.old_transformation

/-- One axis of the relative-mode sign-preserving combination
(lines 55–66): `abs(current + delta)` when the current scale is positive,
`-abs(current - delta)` otherwise. -/
def combineAxis (c d : ℚ) : ℚ :=
  if c > 0 then |c + d| else -|c - d|

/-- All three axes of the sign-preserving combination. -/
def combined (cur d : V3) : V3 :=
  ⟨combineAxis cur.x d.x, combineAxis cur.y d.y, combineAxis cur.z d.z⟩

/-- One axis of factor normalization (lines 70–75): when the combined factor
is non-zero it is divided by the current scale on that axis; Python's float
division raises `ZeroDivisionError` when that current scale is zero, embedded
as `none`. -/
def normalizeAxis (f c : ℚ) : Option ℚ :=
  if f ≠ 0 then (if c = 0 then none else some (f / c)) else some f

/-- Factor normalization of all three axes, in source order (x, then y,
then z; an error on an earlier axis prevents the later ones). -/
def normalized (f cur : V3) : Option V3 := do
  let fx ← normalizeAxis f.x cur.x
  let fy ← normalizeAxis f.y cur.y
  let fz ← normalizeAxis f.z cur.z
  pure ⟨fx, fy, fz⟩

/-- The uniform-scale direction fix (lines 51–54): when the requested scale
vector has three equal components, it is remultiplied component-wise by
`((1 / sum(currentScale)) * 3) * currentScale`; the sum being zero makes the
Python division raise, embedded as `none`. -/
def uniformAdjustedScale (scale cur : V3) : Option V3 :=
  if scale.z = scale.y ∧ scale.y = scale.x then
    let s := cur.x + cur.y + cur.z
    if s = 0 then none
    else some (scale * ((1 / s * 3) • cur))
  else some scale

/-- The core of the relative-mode redo up to and including the pivoted
incremental scale (lines 48–79): returns the (possibly adjusted) scale
vector, the per-axis scale factor, and the node state after
`setPosition(-pivot); scaleBy(factor, Parent); setPosition(pivot)`. -/
def relParts (op : ScaleOperation) (n : NodeState) :
    Option (V3 × V3 × NodeState) := do
  let d ← uniformAdjustedScale op.scale n.getScale
  let f ← normalized (combined n.getScale d) n.getScale
  let n1 := n.setPosition (-op.scale_around_point)
  let n2 := n1.scaleBy f TransformSpace.Parent
  pure (d, f, n2.setPosition op.scale_around_point)

/-- One axis of snap scaling (lines 81–87): when snapping is on and the
applied factor on that axis is not exactly 1, the resulting scale is rounded
to 2 decimal places. -/
def snapAxis (snap : Bool) (factor v : ℚ) : ℚ :=
  if snap = true ∧ factor ≠ 1 then roundTo2 v else v

/-- Snap scaling of the resulting scale vector. -/
def snapVec (snap : Bool) (f s : V3) : V3 :=
  ⟨snapAxis snap f.x s.x, snapAxis snap f.y s.y, snapAxis snap f.z s.z⟩

/-- One axis of minimum-size enforcement (lines 89–103): values in
`[0, min)` are raised to `min`, then values in `(-min, 0]` are lowered to
`-min` (the two `if` blocks of the source, applied in order). -/
def enforceMin (m v : ℚ) : ℚ :=
  let v1 := if v < m ∧ 0 ≤ v then m else v
  if -m < v1 ∧ v1 ≤ 0 then -m else v1

/-- Minimum-size enforcement on all three axes. -/
def floorVec (m : ℚ) (v : V3) : V3 :=
  ⟨enforceMin m v.x, enforceMin m v.y, enforceMin m v.z⟩

/-- The scale vector of the relative-mode redo after snapping and before the
minimum-size floor (`new_scale` just after lines 81–87). -/
def relPreFloor (op : ScaleOperation) (n : NodeState) : Option V3 :=
  (relParts op n).map fun x => snapVec op.snap x.2.1 x.2.2.getScale

/-- The whole relative-mode branch of `redo` (lines 48–104).  The operation
itself is returned too because line 54 mutates `self._scale`. -/
def redoRelative (op : ScaleOperation) (n : NodeState) :
    Option (ScaleOperation × NodeState) := do
  let x ← relParts op n
  let pre ← relPreFloor op n
  pure ({ op with scale := x.1 },
    x.2.2.setScale (floorVec op.min_scale pre) TransformSpace.World)

/-- `ScaleOperation.redo`: dispatches on the mode flags in source order
(`set_scale`, then `add_scale`, then `relative_scale`, else the default
incremental scale).  Returns the possibly mutated operation together with
the new node state; `none` embeds a raising run. -/
def redo (op : ScaleOperation) (n : NodeState) :
    Option (ScaleOperation × NodeState) :=
  if op.set_scale then
    some (op, n.setScale op.scale TransformSpace.World)
  else if op.add_scale then
    some (op, n.setScale (n.getScale + op.scale) TransformSpace.Local)
  else if op.relative_scale then
    redoRelative op n
  else
    some (op, n.scaleBy op.scale TransformSpace.World)

/-- `redo` iterated `k` times, threading the (possibly mutated) operation. -/
def iterRedo : ℕ → ScaleOperation → NodeState →
    Option (ScaleOperation × NodeState)
  | 0, op, n => some (op, n)
  | k + 1, op, n => (redo op n).bind fun p => iterRedo k p.1 p.2

end ScaleOperation

/-- An operation handed to `mergeWith`: either a `ScaleOperation` or some
other kind of operation (the Python `type(other) is not ScaleOperation`
check), identified only by a tag. -/
inductive POperation where
  | scaleOp (op : ScaleOperation)
  | otherOp (id : ℕ)
  deriving DecidableEq, Repr

namespace ScaleOperation

/-- `ScaleOperation.mergeWith` (lines 118–130): rejects a non-ScaleOperation
operand, a different target node, `other._set_scale and not self._set_scale`,
and `other._add_scale and not self._add_scale`; otherwise builds
`ScaleOperation(self._node, self._scale)` (all keyword flags at their
defaults) and overwrites its `_old_transformation` with `other`'s.
`nodeNow` is the live node's state, read by the constructor call. -/
def mergeWith (self : ScaleOperation) (other : POperation)
    (nodeNow : NodeState) : Option ScaleOperation :=
  match other with
  | .otherOp _ => none
  | .scaleOp o =>
    if o.node ≠ self.node then none
    else if o.set_scale = true ∧ self.set_scale = false then none
    else if o.add_scale = true ∧ self.add_scale = false then none
    else some { mk' self.node nodeNow self.scale with
                  old_transformation := o.old_transformation }

end ScaleOperation

/-- The per-axis contract of the minimum-size floor relating a pre-floor
value `p` to the floored value `r`: magnitude at least `0.01`; sign preserved
for non-zero `p` (a `p` of exactly `0` goes to `+0.01`); values in
`[0, 0.01)` go to `+0.01`, values in `(-0.01, 0)` go to `-0.01`, and values
of magnitude at least `0.01` pass through unchanged. -/
def floorSpec (p r : ℚ) : Prop :=
  1/100 ≤ |r| ∧ (0 < p → 0 < r) ∧ (p < 0 → r < 0) ∧
  (1/100 ≤ p → r = p) ∧ (0 ≤ p → p < 1/100 → r = 1/100) ∧
  (-(1/100) < p → p < 0 → r = -(1/100)) ∧ (p ≤ -(1/100) → r = p)

namespace ScaleOperation

theorem enforceMin_of_ge (m v : ℚ) (hm : 0 < m) (h : m ≤ v) :
    enforceMin m v = v := by
  simp only [enforceMin]
  have hinner : (if v < m ∧ 0 ≤ v then m else v) = v :=
    if_neg (by rintro ⟨h1, _⟩; linarith)
  rw [hinner, if_neg (by rintro ⟨_, h2⟩; linarith)]

theorem enforceMin_of_nonneg_lt (m v : ℚ) (hm : 0 < m) (h0 : 0 ≤ v)
    (h : v < m) : enforceMin m v = m := by
  simp only [enforceMin]
  have hinner : (if v < m ∧ 0 ≤ v then m else v) = m := if_pos ⟨h, h0⟩
  rw [hinner, if_neg (by rintro ⟨_, h2⟩; linarith)]

theorem enforceMin_of_neg_gt (m v : ℚ) (h1 : -m < v) (h0 : v < 0) :
    enforceMin m v = -m := by
  simp only [enforceMin]
  have hinner : (if v < m ∧ 0 ≤ v then m else v) = v :=
    if_neg (by rintro ⟨_, h2⟩; linarith)
  rw [hinner, if_pos ⟨h1, le_of_lt h0⟩]

theorem enforceMin_of_le_neg (m v : ℚ) (hm : 0 < m) (h : v ≤ -m) :
    enforceMin m v = v := by
  simp only [enforceMin]
  have hinner : (if v < m ∧ 0 ≤ v then m else v) = v :=
    if_neg (by rintro ⟨_, h2⟩; linarith)
  rw [hinner, if_neg (by rintro ⟨h1, _⟩; linarith)]

theorem floorSpec_enforceMin (v : ℚ) : floorSpec v (enforceMin (1/100) v) := by
  rcases le_or_lt (1/100) v with h | h
  · rw [enforceMin_of_ge _ _ (by norm_num) h]
    refine ⟨by rw [abs_of_pos (by linarith)]; linarith, ?_, ?_, ?_, ?_, ?_, ?_⟩
      <;> intros <;> linarith
  · rcases le_or_lt 0 v with h0 | h0
    · rw [enforceMin_of_nonneg_lt _ _ (by norm_num) h0 h]
      refine ⟨by rw [abs_of_pos (by norm_num)], ?_, ?_, ?_, ?_, ?_, ?_⟩
        <;> intros <;> linarith
    · rcases le_or_lt v (-(1/100)) with h1 | h1
      · rw [enforceMin_of_le_neg _ _ (by norm_num) h1]
        refine ⟨by rw [abs_of_neg (by linarith)]; linarith, ?_, ?_, ?_, ?_, ?_, ?_⟩
          <;> intros <;> linarith
      · rw [enforceMin_of_neg_gt _ _ h1 h0]
        refine ⟨by rw [abs_of_neg (by norm_num)]; norm_num, ?_, ?_, ?_, ?_, ?_, ?_⟩
          <;> intros <;> linarith

theorem combineAxis_of_pos (c d : ℚ) (h : 0 < c) :
    combineAxis c d = |c + d| := by simp [combineAxis, h]

theorem combineAxis_of_nonpos (c d : ℚ) (h : c ≤ 0) :
    combineAxis c d = -|c - d| := by
  simp [combineAxis, not_lt.mpr h]

theorem combineAxis_nonpos (c d : ℚ) (h : c ≤ 0) : combineAxis c d ≤ 0 := by
  rw [combineAxis_of_nonpos c d h]
  exact neg_nonpos.mpr (abs_nonneg _)

theorem getScale_setScale (n : NodeState) (s : V3) (sp : TransformSpace) :
    (n.setScale s sp).getScale = s := rfl

theorem position_setScale (n : NodeState) (s : V3) (sp : TransformSpace) :
    (n.setScale s sp).position = n.position := rfl

theorem getScale_setPosition (n : NodeState) (p : V3) :
    (n.setPosition p).getScale = n.getScale := rfl

theorem position_setPosition (n : NodeState) (p : V3) :
    (n.setPosition p).position = p := rfl

theorem getScale_scaleBy (n : NodeState) (f : V3) (sp : TransformSpace) :
    (n.scaleBy f sp).getScale = f * n.getScale := rfl

theorem normalized_eq_some (f cur g : V3) (h : normalized f cur = some g) :
    normalizeAxis f.x cur.x = some g.x ∧ normalizeAxis f.y cur.y = some g.y ∧
      normalizeAxis f.z cur.z = some g.z := by
  simp only [normalized, Option.bind_eq_bind, Option.bind_eq_some,
    Option.pure_def, Option.some.injEq] at h
  obtain ⟨a, hx, b, hy, c, hz, hg⟩ := h
  subst hg
  exact ⟨hx, hy, hz⟩

theorem relParts_eq_some (op : ScaleOperation) (n : NodeState) (d f : V3)
    (n3 : NodeState) (h : relParts op n = some (d, f, n3)) :
    uniformAdjustedScale op.scale n.getScale = some d ∧
    normalized (combined n.getScale d) n.getScale = some f ∧
    n3 = ((n.setPosition (-op.scale_around_point)).scaleBy f
      TransformSpace.Parent).setPosition op.scale_around_point := by
  simp only [relParts, Option.bind_eq_bind, Option.bind_eq_some,
    Option.pure_def, Option.some.injEq, Prod.mk.injEq] at h
  obtain ⟨d', hu, f', hn, hd, hf, hn3⟩ := h
  subst hd; subst hf; subst hn3
  exact ⟨hu, hn, rfl⟩

theorem redo_of_relative (op : ScaleOperation) (n : NodeState)
    (h1 : op.set_scale = false) (h2 : op.add_scale = false)
    (h3 : op.relative_scale = true) : redo op n = redoRelative op n := by
  simp [redo, h1, h2, h3]

theorem redoRelative_eq_some (op : ScaleOperation) (n : NodeState)
    (op' : ScaleOperation) (n' : NodeState)
    (h : redoRelative op n = some (op', n')) :
    ∃ d f n3, relParts op n = some (d, f, n3) ∧ op' = { op with scale := d } ∧
      n' = n3.setScale (floorVec op.min_scale (snapVec op.snap f n3.getScale))
        TransformSpace.World := by
  simp only [redoRelative, Option.bind_eq_bind, Option.bind_eq_some,
    Option.pure_def, Option.some.injEq, Prod.mk.injEq] at h
  obtain ⟨⟨d, f, n3⟩, hp, pre, hpre, hop, hn⟩ := h
  have hpre' : pre = snapVec op.snap f n3.getScale := by
    rw [relPreFloor, hp] at hpre
    exact (Option.some.inj hpre).symm
  subst hpre'
  exact ⟨d, f, n3, hp, hop.symm, hn.symm⟩

theorem redo_preserves_old (op : ScaleOperation) (n : NodeState)
    (op' : ScaleOperation) (n' : NodeState) (h : redo op n = some (op', n')) :
    op'.old_transformation = op.old_transformation := by
  unfold redo at h
  split_ifs at h with h1 h2 h3
  · simp only [Option.some.injEq, Prod.mk.injEq] at h
    rw [← h.1]
  · simp only [Option.some.injEq, Prod.mk.injEq] at h
    rw [← h.1]
  · obtain ⟨d, f, n3, _, rfl, _⟩ :=
      redoRelative_eq_some op n op' n' h
    rfl
  · simp only [Option.some.injEq, Prod.mk.injEq] at h
    rw [← h.1]

/-- C1: for every ScaleOperation, in every mode, after the sequence
construct → redo → undo, the node's local transformation equals exactly the
snapshot captured at construction time. -/
theorem c1_undo_restores_construction_snapshot (nodeId : ℕ) (n0 : NodeState)
    (sv : V3) (fs fa fr : Bool) (pivot : V3) (sn : Bool)
    (op' : ScaleOperation) (n1 : NodeState)
    (h : redo (mk' nodeId n0 sv fs fa fr pivot sn) n0 = some (op', n1)) :
    undo op' n1 = n0.getLocalTransformation := by
  have hold := redo_preserves_old _ _ _ _ h
  show op'.old_transformation = n0.getLocalTransformation
  rw [hold]
  rfl

/-- Witness for C1 at a concrete input (SetAbsolute mode). -/
theorem c1_witness :
    undo (mk' 0 ⟨⟨0,0,0⟩, ⟨1,1,1⟩⟩ ⟨2,2,2⟩ true false false ⟨0,0,0⟩ false)
        ⟨⟨0,0,0⟩, ⟨2,2,2⟩⟩ =
      NodeState.getLocalTransformation ⟨⟨0,0,0⟩, ⟨1,1,1⟩⟩ :=
  c1_undo_restores_construction_snapshot 0 ⟨⟨0,0,0⟩, ⟨1,1,1⟩⟩ ⟨2,2,2⟩
    true false false ⟨0,0,0⟩ false _ _ rfl

/-- C10: undo is idempotent — any number `k ≥ 1` of consecutive undos leaves
the node exactly as one undo does, for every operation and node state. -/
theorem c10_undo_idempotent (op : ScaleOperation) (m : NodeState) (k : ℕ)
    (h : 1 ≤ k) : (undo op)^[k] m = undo op m := by
  obtain ⟨j, rfl⟩ : ∃ j, k = j + 1 := ⟨k - 1, by omega⟩
  rw [Function.iterate_succ_apply']
  rfl

/-- Witness for C10 at a concrete input. -/
theorem c10_witness :
    (undo (mk' 0 ⟨⟨0,0,0⟩, ⟨1,1,1⟩⟩ ⟨2,2,2⟩))^[2] ⟨⟨5,5,5⟩, ⟨3,3,3⟩⟩ =
      undo (mk' 0 ⟨⟨0,0,0⟩, ⟨1,1,1⟩⟩ ⟨2,2,2⟩) ⟨⟨5,5,5⟩, ⟨3,3,3⟩⟩ :=
  c10_undo_idempotent _ _ 2 (by norm_num)

/-- C9: in AddToCurrent mode every redo adds the scale vector to the current
scale (no floor or snap), so `k` consecutive redos yield the initial scale
plus `k` times the scale vector — redo is not idempotent in this mode. -/
theorem c9_add_mode_accumulates (op : ScaleOperation) (n : NodeState) (k : ℕ)
    (h1 : op.set_scale = false) (h2 : op.add_scale = true) :
    iterRedo k op n = some (op, ⟨n.position, n.getScale + (k : ℚ) • op.scale⟩) := by
  induction k generalizing n with
  | zero =>
    have hz : n.getScale + ((0 : ℕ) : ℚ) • op.scale = n.scale := by
      ext <;> simp [V3.add_def, V3.smul_def, NodeState.getScale]
    simp only [iterRedo, hz]
  | succ k ih =>
    have hr : redo op n =
        some (op, n.setScale (n.getScale + op.scale) TransformSpace.Local) := by
      simp [redo, h1, h2]
    have hstep : n.getScale + op.scale + (k : ℚ) • op.scale =
        n.getScale + ((k + 1 : ℕ) : ℚ) • op.scale := by
      ext <;> simp [V3.add_def, V3.smul_def, NodeState.getScale] <;> ring
    show (redo op n).bind (fun p => iterRedo k p.1 p.2) =
      some (op, ⟨n.position, n.getScale + ((k + 1 : ℕ) : ℚ) • op.scale⟩)
    rw [hr, Option.some_bind]
    rw [ih]
    simp only [position_setScale, getScale_setScale]
    rw [hstep]

/-- Witness for C9 at a concrete input, three redos. -/
theorem c9_witness :
    iterRedo 3 (mk' 0 ⟨⟨0,0,0⟩, ⟨1,1,1⟩⟩ ⟨1,2,3⟩ false true) ⟨⟨0,0,0⟩, ⟨1,1,1⟩⟩ =
      some (mk' 0 ⟨⟨0,0,0⟩, ⟨1,1,1⟩⟩ ⟨1,2,3⟩ false true,
        ⟨⟨0,0,0⟩, (⟨⟨0,0,0⟩, ⟨1,1,1⟩⟩ : NodeState).getScale +
          ((3 : ℕ) : ℚ) • (mk' 0 ⟨⟨0,0,0⟩, ⟨1,1,1⟩⟩ ⟨1,2,3⟩ false true).scale⟩) :=
  c9_add_mode_accumulates _ _ 3 rfl rfl

/-- C4 (amended): a successful merge carries self's scale vector and adopts
other's prior transform, so undoing it restores the state from before either
operation; but the merged command's mode flags, pivot and snap are the
constructor defaults, not self's mode. -/
theorem c4_merge_carries (self o : ScaleOperation) (t : NodeState)
    (m : ScaleOperation)
    (h : mergeWith self (POperation.scaleOp o) t = some m) :
    m.scale = self.scale ∧ m.old_transformation = o.old_transformation ∧
    m.node = self.node ∧ m.set_scale = false ∧ m.add_scale = false ∧
    m.relative_scale = false ∧ m.snap = false ∧
    m.scale_around_point = ⟨0, 0, 0⟩ ∧
    ∀ s : NodeState, undo m s = o.old_transformation := by
  simp only [mergeWith] at h
  split_ifs at h
  obtain rfl := Option.some.inj h
  exact ⟨rfl, rfl, rfl, rfl, rfl, rfl, rfl, rfl, fun s => rfl⟩

/-- Witness for C4 at a concrete input. -/
theorem c4_witness :
    (let self := mk' 7 ⟨⟨0,0,0⟩, ⟨1,1,1⟩⟩ ⟨2,3,4⟩
     let o := mk' 7 ⟨⟨1,1,1⟩, ⟨2,2,2⟩⟩ ⟨9,9,9⟩
     let m := { mk' 7 ⟨⟨0,0,0⟩, ⟨1,1,1⟩⟩ ⟨2,3,4⟩ with
                  old_transformation := o.old_transformation }
     m.scale = self.scale ∧ m.old_transformation = o.old_transformation ∧
     m.node = self.node ∧ m.set_scale = false ∧ m.add_scale = false ∧
     m.relative_scale = false ∧ m.snap = false ∧
     m.scale_around_point = ⟨0, 0, 0⟩ ∧
     ∀ s : NodeState, undo m s = o.old_transformation) :=
  c4_merge_carries (mk' 7 ⟨⟨0,0,0⟩, ⟨1,1,1⟩⟩ ⟨2,3,4⟩)
    (mk' 7 ⟨⟨1,1,1⟩, ⟨2,2,2⟩⟩ ⟨9,9,9⟩) ⟨⟨0,0,0⟩, ⟨1,1,1⟩⟩ _ rfl

/-- Counterexample to C4 as stated: the merged command's mode does not equal
self's mode — merging a RelativeToCurrent command produces a command whose
`relative_scale` flag is `false`. -/
theorem c4_counterexample :
    (mergeWith (mk' 7 ⟨⟨0,0,0⟩, ⟨1,1,1⟩⟩ ⟨2,3,4⟩ false false true)
        (POperation.scaleOp (mk' 7 ⟨⟨1,1,1⟩, ⟨2,2,2⟩⟩ ⟨9,9,9⟩))
        ⟨⟨0,0,0⟩, ⟨1,1,1⟩⟩).map (fun m => m.relative_scale) = some false ∧
    (mk' 7 ⟨⟨0,0,0⟩, ⟨1,1,1⟩⟩ ⟨2,3,4⟩ false false true).relative_scale = true :=
  ⟨rfl, rfl⟩

/-- C5 (amended): mergeWith returns the not-mergeable sentinel exactly when
the operand is not a ScaleOperation, the nodes differ, or the *older*
command has a mode flag (`set_scale`, `add_scale`) that the newer one lacks;
the checks are one-directional, so self having a flag that other lacks does
not prevent merging. -/
theorem c5_merge_rejection (self : ScaleOperation) (other : POperation)
    (t : NodeState) :
    mergeWith self other t = none ↔
      (∀ o : ScaleOperation, other ≠ POperation.scaleOp o) ∨
      (∃ o : ScaleOperation, other = POperation.scaleOp o ∧
        (o.node ≠ self.node ∨ (o.set_scale = true ∧ self.set_scale = false) ∨
         (o.add_scale = true ∧ self.add_scale = false))) := by
  cases other with
  | otherOp i =>
    constructor
    · intro _
      left
      intro o ho
      exact POperation.noConfusion ho
    · intro _
      rfl
  | scaleOp o =>
    simp only [mergeWith]
    split_ifs with hc1 hc2 hc3
    · exact iff_of_true rfl (Or.inr ⟨o, rfl, Or.inl hc1⟩)
    · exact iff_of_true rfl (Or.inr ⟨o, rfl, Or.inr (Or.inl hc2)⟩)
    · exact iff_of_true rfl (Or.inr ⟨o, rfl, Or.inr (Or.inr hc3)⟩)
    · apply iff_of_false
      · simp
      · rintro (hall | ⟨o', heq, hcond⟩)
        · exact hall o rfl
        · injection heq with ho
          subst ho
          rcases hcond with hn | hb | hb
          · exact hc1 hn
          · exact hc2 hb
          · exact hc3 hb

/-- Witness for C5 at a concrete input (a non-ScaleOperation operand). -/
theorem c5_witness :
    mergeWith (mk' 7 ⟨⟨0,0,0⟩, ⟨1,1,1⟩⟩ ⟨2,3,4⟩) (POperation.otherOp 0)
        ⟨⟨0,0,0⟩, ⟨1,1,1⟩⟩ = none ↔
      (∀ o : ScaleOperation, POperation.otherOp 0 ≠ POperation.scaleOp o) ∨
      (∃ o : ScaleOperation, POperation.otherOp 0 = POperation.scaleOp o ∧
        (o.node ≠ (mk' 7 ⟨⟨0,0,0⟩, ⟨1,1,1⟩⟩ ⟨2,3,4⟩).node ∨
         (o.set_scale = true ∧
           (mk' 7 ⟨⟨0,0,0⟩, ⟨1,1,1⟩⟩ ⟨2,3,4⟩).set_scale = false) ∨
         (o.add_scale = true ∧
           (mk' 7 ⟨⟨0,0,0⟩, ⟨1,1,1⟩⟩ ⟨2,3,4⟩).add_scale = false))) :=
  c5_merge_rejection (mk' 7 ⟨⟨0,0,0⟩, ⟨1,1,1⟩⟩ ⟨2,3,4⟩) (POperation.otherOp 0)
    ⟨⟨0,0,0⟩, ⟨1,1,1⟩⟩

/-- Counterexample to C5 as stated: the two commands' `set_scale` flags
differ (self has it, other does not) yet the merge succeeds, because the
source only rejects when the *older* command has the flag. -/
theorem c5_counterexample :
    mergeWith (mk' 7 ⟨⟨0,0,0⟩, ⟨1,1,1⟩⟩ ⟨2,3,4⟩ true)
        (POperation.scaleOp (mk' 7 ⟨⟨1,1,1⟩, ⟨2,2,2⟩⟩ ⟨9,9,9⟩))
        ⟨⟨0,0,0⟩, ⟨1,1,1⟩⟩ ≠ none ∧
    (mk' 7 ⟨⟨0,0,0⟩, ⟨1,1,1⟩⟩ ⟨2,3,4⟩ true).set_scale = true ∧
    (mk' 7 ⟨⟨1,1,1⟩, ⟨2,2,2⟩⟩ ⟨9,9,9⟩).set_scale = false := by
  refine ⟨?_, rfl, rfl⟩
  intro h
  simp only [mergeWith] at h
  split_ifs at h with hc1 hc2 hc3
  · exact hc1 rfl
  · exact absurd hc2.1 (by decide)
  · exact absurd hc3.1 (by decide)

/-- C6 (amended): in RelativeToCurrent mode, redo sets the node's position to
`-pivot`, applies the per-axis scale factor in Parent space, then sets the
position to `pivot`; consequently after a successful redo the node's position
equals the pivot exactly, independently of the node's prior position (so the
position relative to the pivot is preserved only when it was already zero). -/
theorem c6_pivot_mechanism (op : ScaleOperation) (n : NodeState)
    (op' : ScaleOperation) (n' : NodeState)
    (h1 : op.set_scale = false) (h2 : op.add_scale = false)
    (h3 : op.relative_scale = true) (hr : redo op n = some (op', n')) :
    (∃ d f, relParts op n =
        some (d, f, ((n.setPosition (-op.scale_around_point)).scaleBy f
          TransformSpace.Parent).setPosition op.scale_around_point)) ∧
    n'.position = op.scale_around_point := by
  rw [redo_of_relative op n h1 h2 h3] at hr
  obtain ⟨d, f, n3, hp, hop, hn⟩ := redoRelative_eq_some op n op' n' hr
  obtain ⟨hu, hnorm, hn3⟩ := relParts_eq_some op n d f n3 hp
  refine ⟨⟨d, f, by rw [← hn3]; exact hp⟩, ?_⟩
  rw [hn, position_setScale, hn3, position_setPosition]

/-- Witness for C6 at a concrete input: node at position (5,0,0), pivot
(1,0,0); after redo the position is (1,0,0). -/
theorem c6_witness :
    (∃ d f, relParts (mk' 0 ⟨⟨5,0,0⟩, ⟨1,1,1⟩⟩ ⟨1,0,0⟩ false false true ⟨1,0,0⟩)
        ⟨⟨5,0,0⟩, ⟨1,1,1⟩⟩ =
        some (d, f, (((⟨⟨5,0,0⟩, ⟨1,1,1⟩⟩ : NodeState).setPosition
          (-(mk' 0 ⟨⟨5,0,0⟩, ⟨1,1,1⟩⟩ ⟨1,0,0⟩ false false true
              ⟨1,0,0⟩).scale_around_point)).scaleBy f
          TransformSpace.Parent).setPosition
          (mk' 0 ⟨⟨5,0,0⟩, ⟨1,1,1⟩⟩ ⟨1,0,0⟩ false false true
            ⟨1,0,0⟩).scale_around_point)) ∧
    (⟨⟨1,0,0⟩, ⟨2,1,1⟩⟩ : NodeState).position =
      (mk' 0 ⟨⟨5,0,0⟩, ⟨1,1,1⟩⟩ ⟨1,0,0⟩ false false true
        ⟨1,0,0⟩).scale_around_point :=
  c6_pivot_mechanism (mk' 0 ⟨⟨5,0,0⟩, ⟨1,1,1⟩⟩ ⟨1,0,0⟩ false false true ⟨1,0,0⟩)
    ⟨⟨5,0,0⟩, ⟨1,1,1⟩⟩
    (mk' 0 ⟨⟨5,0,0⟩, ⟨1,1,1⟩⟩ ⟨1,0,0⟩ false false true ⟨1,0,0⟩)
    ⟨⟨1,0,0⟩, ⟨2,1,1⟩⟩ rfl rfl rfl (by
      simp [redo, redoRelative, relParts, relPreFloor, uniformAdjustedScale,
        normalized, normalizeAxis, combined, combineAxis, snapVec, snapAxis,
        floorVec, enforceMin, mk', NodeState.getScale, NodeState.setScale,
        NodeState.setPosition, NodeState.scaleBy, V3.mul_def, V3.smul_def,
        V3.neg_def, Option.bind]
      try norm_num [abs_of_pos, abs_of_nonneg, abs_of_nonpos]
      try exact ⟨_, _, ⟨rfl, rfl⟩, rfl⟩
      try exact ⟨_, _, _, ⟨rfl, rfl, rfl⟩, rfl, rfl, rfl⟩)

/-- Counterexample to C6 as stated: the node starts at position (5,0,0) with
pivot (1,0,0); after redo its position is (1,0,0), so its position relative
to the pivot changed from 4 to 0 — the pivot is not a fixed point of the
node's motion. -/
theorem c6_counterexample :
    redo (mk' 0 ⟨⟨5,0,0⟩, ⟨1,1,1⟩⟩ ⟨1,0,0⟩ false false true ⟨1,0,0⟩)
        ⟨⟨5,0,0⟩, ⟨1,1,1⟩⟩ =
      some (mk' 0 ⟨⟨5,0,0⟩, ⟨1,1,1⟩⟩ ⟨1,0,0⟩ false false true ⟨1,0,0⟩,
        ⟨⟨1,0,0⟩, ⟨2,1,1⟩⟩) ∧
    ((5 : ℚ) - 1 ≠ 1 - 1) := by
  constructor
  · simp [redo, redoRelative, relParts, relPreFloor, uniformAdjustedScale,
      normalized, normalizeAxis, combined, combineAxis, snapVec, snapAxis,
      floorVec, enforceMin, mk', NodeState.getScale, NodeState.setScale,
      NodeState.setPosition, NodeState.scaleBy, V3.mul_def, V3.smul_def,
      V3.neg_def, Option.bind]
    try norm_num [abs_of_pos, abs_of_nonneg, abs_of_nonpos]
    try exact ⟨_, _, ⟨rfl, rfl⟩, rfl⟩
    try exact ⟨_, _, _, ⟨rfl, rfl, rfl⟩, rfl, rfl, rfl⟩
  · norm_num

/-- C3 (amended): in RelativeToCurrent mode with a zero current scale on the
x axis, normalization is skipped for that axis only when the combined
factor `-abs(0 - delta)` is itself zero, i.e. when the (adjusted) delta on
that axis is zero — the factor then stays 0; for any non-zero delta the
factor is non-zero and the division by the zero current scale occurs, so
redo raises (returns `none`). -/
theorem c3_zero_axis (op : ScaleOperation) (n : NodeState) (d : V3)
    (h1 : op.set_scale = false) (h2 : op.add_scale = false)
    (h3 : op.relative_scale = true)
    (hd : uniformAdjustedScale op.scale n.getScale = some d)
    (hx : n.getScale.x = 0) :
    (d.x = 0 → normalizeAxis (combineAxis n.getScale.x d.x) n.getScale.x =
      some 0) ∧
    (d.x ≠ 0 → redo op n = none) := by
  have hcomb : combineAxis n.getScale.x d.x = -|d.x| := by
    rw [combineAxis_of_nonpos _ _ (le_of_eq hx), hx, zero_sub, abs_neg]
  constructor
  · intro h0
    rw [hcomb, h0, hx]
    simp [normalizeAxis]
  · intro h0
    rw [redo_of_relative op n h1 h2 h3]
    have hna : normalizeAxis (combined n.getScale d).x n.getScale.x = none := by
      rw [show (combined n.getScale d).x = combineAxis n.getScale.x d.x from rfl,
        hcomb, hx]
      simp [normalizeAxis, h0]
    have hnorm : normalized (combined n.getScale d) n.getScale = none := by
      simp [normalized, hna]
    have hparts : relParts op n = none := by
      simp [relParts, hd, hnorm]
    simp [redoRelative, hparts]

/-- Witness for C3 at a concrete input: current scale (0,1,1), delta (1,0,0). -/
theorem c3_witness :
    (((⟨1,0,0⟩ : V3)).x = 0 →
      normalizeAxis
        (combineAxis (NodeState.getScale ⟨⟨0,0,0⟩, ⟨0,1,1⟩⟩).x ((⟨1,0,0⟩ : V3)).x)
        (NodeState.getScale ⟨⟨0,0,0⟩, ⟨0,1,1⟩⟩).x = some 0) ∧
    (((⟨1,0,0⟩ : V3)).x ≠ 0 →
      redo (mk' 0 ⟨⟨0,0,0⟩, ⟨0,1,1⟩⟩ ⟨1,0,0⟩ false false true)
        ⟨⟨0,0,0⟩, ⟨0,1,1⟩⟩ = none) :=
  c3_zero_axis (mk' 0 ⟨⟨0,0,0⟩, ⟨0,1,1⟩⟩ ⟨1,0,0⟩ false false true)
    ⟨⟨0,0,0⟩, ⟨0,1,1⟩⟩ ⟨1,0,0⟩ rfl rfl rfl
    (by norm_num [uniformAdjustedScale, NodeState.getScale, mk']) rfl

/-- Counterexample to C3 as stated: with current scale (0,1,1) and delta
(1,0,0) the relative-mode redo does not complete — the combined factor on
the x axis is `-abs(0 - 1) = -1 ≠ 0`, so the code divides by the zero
current scale and raises. -/
theorem c3_counterexample :
    redo (mk' 0 ⟨⟨0,0,0⟩, ⟨0,1,1⟩⟩ ⟨1,0,0⟩ false false true)
      ⟨⟨0,0,0⟩, ⟨0,1,1⟩⟩ = none := by
  simp [redo, redoRelative, relParts, relPreFloor, uniformAdjustedScale,
    normalized, normalizeAxis, combined, combineAxis, mk',
    NodeState.getScale, NodeState.setPosition, NodeState.scaleBy,
    V3.mul_def, V3.smul_def, V3.neg_def, Option.bind]
  try norm_num [abs_of_pos, abs_of_nonneg, abs_of_nonpos]
  try exact ⟨_, _, ⟨rfl, rfl⟩, rfl⟩
  try exact ⟨_, _, _, ⟨rfl, rfl, rfl⟩, rfl, rfl, rfl⟩

/-- C7: when the requested scale vector is uniform, the relative-mode redo
first remultiplies it component-wise by `(3 / sum(currentScale)) •
currentScale`; consequently, from current scale (2,1,1) and uniform delta
(1,1,1), the post-redo scale (7/2, 7/4, 7/4) is not uniform. -/
theorem c7_uniform_renormalization :
    (∀ (op : ScaleOperation) (n : NodeState),
      op.scale.z = op.scale.y → op.scale.y = op.scale.x →
      n.getScale.x + n.getScale.y + n.getScale.z ≠ 0 →
      uniformAdjustedScale op.scale n.getScale =
        some (op.scale *
          ((3 / (n.getScale.x + n.getScale.y + n.getScale.z)) • n.getScale))) ∧
    ((redo (mk' 0 ⟨⟨0,0,0⟩, ⟨2,1,1⟩⟩ ⟨1,1,1⟩ false false true)
        ⟨⟨0,0,0⟩, ⟨2,1,1⟩⟩).map (fun p => p.2.getScale) =
      some ⟨7/2, 7/4, 7/4⟩ ∧ ((7 : ℚ)/2 ≠ 7/4)) := by
  refine ⟨?_, ?_, by norm_num⟩
  · intro op n hz hy hs
    simp only [uniformAdjustedScale]
    rw [if_pos ⟨hz, hy⟩, if_neg hs]
    have hratio : 1 / (n.getScale.x + n.getScale.y + n.getScale.z) * 3 =
        3 / (n.getScale.x + n.getScale.y + n.getScale.z) := by ring
    rw [hratio]
  · simp [redo, redoRelative, relParts, relPreFloor, uniformAdjustedScale,
      normalized, normalizeAxis, combined, combineAxis, snapVec, snapAxis,
      floorVec, enforceMin, mk', NodeState.getScale, NodeState.setScale,
      NodeState.setPosition, NodeState.scaleBy, V3.mul_def, V3.smul_def,
      V3.neg_def, Option.bind]
    try norm_num [abs_of_pos, abs_of_nonneg, abs_of_nonpos]
    try exact ⟨_, _, ⟨rfl, rfl⟩, rfl⟩
    try exact ⟨_, _, _, ⟨rfl, rfl, rfl⟩, rfl, rfl, rfl⟩

/-- Witness for C7's universal part at a concrete input. -/
theorem c7_witness :
    uniformAdjustedScale
        (mk' 0 ⟨⟨0,0,0⟩, ⟨2,1,1⟩⟩ ⟨1,1,1⟩ false false true).scale
        (NodeState.getScale ⟨⟨0,0,0⟩, ⟨2,1,1⟩⟩) =
      some ((mk' 0 ⟨⟨0,0,0⟩, ⟨2,1,1⟩⟩ ⟨1,1,1⟩ false false true).scale *
        ((3 / ((NodeState.getScale ⟨⟨0,0,0⟩, ⟨2,1,1⟩⟩).x +
            (NodeState.getScale ⟨⟨0,0,0⟩, ⟨2,1,1⟩⟩).y +
            (NodeState.getScale ⟨⟨0,0,0⟩, ⟨2,1,1⟩⟩).z)) •
          NodeState.getScale ⟨⟨0,0,0⟩, ⟨2,1,1⟩⟩)) :=
  c7_uniform_renormalization.1
    (mk' 0 ⟨⟨0,0,0⟩, ⟨2,1,1⟩⟩ ⟨1,1,1⟩ false false true) ⟨⟨0,0,0⟩, ⟨2,1,1⟩⟩
    rfl rfl (by norm_num [NodeState.getScale])

/-- C2 (amended): after a successful relative-mode redo, each axis of the
resulting scale satisfies the floor contract against its post-snap pre-floor
value: magnitude at least 0.01; sign preserved for non-zero pre-floor values;
pre-floor values in `[0, 0.01)` become exactly `+0.01` (including exactly 0),
values in `(-0.01, 0)` become exactly `-0.01`, and the floor is applied after
snapping, overriding it. -/
theorem c2_floor_after_snap (op : ScaleOperation) (n : NodeState)
    (op' : ScaleOperation) (n' : NodeState) (p : V3)
    (h1 : op.set_scale = false) (h2 : op.add_scale = false)
    (h3 : op.relative_scale = true) (hm : op.min_scale = 1/100)
    (hr : redo op n = some (op', n')) (hp : relPreFloor op n = some p) :
    floorSpec p.x n'.getScale.x ∧ floorSpec p.y n'.getScale.y ∧
      floorSpec p.z n'.getScale.z := by
  rw [redo_of_relative op n h1 h2 h3] at hr
  obtain ⟨d, f, n3, hparts, hop, hn⟩ := redoRelative_eq_some op n op' n' hr
  have hpre : relPreFloor op n = some (snapVec op.snap f n3.getScale) := by
    simp [relPreFloor, hparts]
  have hp' : p = snapVec op.snap f n3.getScale :=
    (Option.some.inj (hpre.symm.trans hp)).symm
  subst hp'
  rw [hn, getScale_setScale, hm]
  exact ⟨floorSpec_enforceMin _, floorSpec_enforceMin _, floorSpec_enforceMin _⟩

/-- Witness for C2 at a concrete input (pre-floor scale (7/2, 7/4, 7/4)). -/
theorem c2_witness :
    floorSpec (V3.mk (7/2) (7/4) (7/4)).x
        (NodeState.getScale ⟨⟨0,0,0⟩, ⟨7/2, 7/4, 7/4⟩⟩).x ∧
    floorSpec (V3.mk (7/2) (7/4) (7/4)).y
        (NodeState.getScale ⟨⟨0,0,0⟩, ⟨7/2, 7/4, 7/4⟩⟩).y ∧
    floorSpec (V3.mk (7/2) (7/4) (7/4)).z
        (NodeState.getScale ⟨⟨0,0,0⟩, ⟨7/2, 7/4, 7/4⟩⟩).z :=
  c2_floor_after_snap (mk' 0 ⟨⟨0,0,0⟩, ⟨2,1,1⟩⟩ ⟨1,1,1⟩ false false true)
    ⟨⟨0,0,0⟩, ⟨2,1,1⟩⟩
    { mk' 0 ⟨⟨0,0,0⟩, ⟨2,1,1⟩⟩ ⟨1,1,1⟩ false false true with
        scale := ⟨3/2, 3/4, 3/4⟩ }
    ⟨⟨0,0,0⟩, ⟨7/2, 7/4, 7/4⟩⟩ ⟨7/2, 7/4, 7/4⟩ rfl rfl rfl rfl
    (by
      simp [redo, redoRelative, relParts, relPreFloor, uniformAdjustedScale,
        normalized, normalizeAxis, combined, combineAxis, snapVec, snapAxis,
        floorVec, enforceMin, mk', NodeState.getScale, NodeState.setScale,
        NodeState.setPosition, NodeState.scaleBy, V3.mul_def, V3.smul_def,
        V3.neg_def, Option.bind]
      try norm_num [abs_of_pos, abs_of_nonneg, abs_of_nonpos]
      try exact ⟨_, _, ⟨rfl, rfl⟩, rfl⟩
      try exact ⟨_, _, _, ⟨rfl, rfl, rfl⟩, rfl, rfl, rfl⟩)
    (by
      simp [relParts, relPreFloor, uniformAdjustedScale, normalized,
        normalizeAxis, combined, combineAxis, snapVec, snapAxis, mk',
        NodeState.getScale, NodeState.setPosition, NodeState.scaleBy,
        V3.mul_def, V3.smul_def, V3.neg_def, Option.bind]
      try norm_num [abs_of_pos, abs_of_nonneg, abs_of_nonpos]
      try exact ⟨_, _, ⟨rfl, rfl⟩, rfl⟩
      try exact ⟨_, _, _, ⟨rfl, rfl, rfl⟩, rfl, rfl, rfl⟩)

/-- Counterexample to C2 as stated: with current scale (-1,1,1) and delta
(-1,0,0), the pre-floor value on the x axis is exactly 0, which lies in the
claimed interval `(-0.01, 0]`, yet the result is `+0.01`, not `-0.01`. -/
theorem c2_counterexample :
    relPreFloor (mk' 0 ⟨⟨0,0,0⟩, ⟨-1,1,1⟩⟩ ⟨-1,0,0⟩ false false true)
        ⟨⟨0,0,0⟩, ⟨-1,1,1⟩⟩ = some ⟨0,1,1⟩ ∧
    (redo (mk' 0 ⟨⟨0,0,0⟩, ⟨-1,1,1⟩⟩ ⟨-1,0,0⟩ false false true)
        ⟨⟨0,0,0⟩, ⟨-1,1,1⟩⟩).map (fun q => q.2.getScale.x) = some (1/100) ∧
    ¬((1 : ℚ)/100 = -(1/100)) := by
  refine ⟨?_, ?_, by norm_num⟩
  · simp [relParts, relPreFloor, uniformAdjustedScale, normalized,
      normalizeAxis, combined, combineAxis, snapVec, snapAxis, mk',
      NodeState.getScale, NodeState.setPosition, NodeState.scaleBy,
      V3.mul_def, V3.smul_def, V3.neg_def, Option.bind]
    try norm_num [abs_of_pos, abs_of_nonneg, abs_of_nonpos]
    try exact ⟨_, _, ⟨rfl, rfl⟩, rfl⟩
    try exact ⟨_, _, _, ⟨rfl, rfl, rfl⟩, rfl, rfl, rfl⟩
  · simp [redo, redoRelative, relParts, relPreFloor, uniformAdjustedScale,
      normalized, normalizeAxis, combined, combineAxis, snapVec, snapAxis,
      floorVec, enforceMin, mk', NodeState.getScale, NodeState.setScale,
      NodeState.setPosition, NodeState.scaleBy, V3.mul_def, V3.smul_def,
      V3.neg_def, Option.bind]
    try norm_num [abs_of_pos, abs_of_nonneg, abs_of_nonpos]
    try exact ⟨_, _, ⟨rfl, rfl⟩, rfl⟩
    try exact ⟨_, _, _, ⟨rfl, rfl, rfl⟩, rfl, rfl, rfl⟩

/-- C8 (amended): in RelativeToCurrent mode with snap off, a negative current
scale on the x axis stays negative after redo provided the combined value
`-abs(current - delta)` is non-zero: a combined value at most `-0.01` passes
through exactly, one in `(-0.01, 0)` is floored to `-0.01`.  (When the
combined value is exactly zero the floor instead yields `+0.01`, flipping
the axis — see the counterexample.) -/
theorem c8_mirror_axis (op : ScaleOperation) (n : NodeState) (d : V3)
    (op' : ScaleOperation) (n' : NodeState)
    (h1 : op.set_scale = false) (h2 : op.add_scale = false)
    (h3 : op.relative_scale = true) (hm : op.min_scale = 1/100)
    (hs : op.snap = false)
    (hd : uniformAdjustedScale op.scale n.getScale = some d)
    (hx : n.getScale.x < 0)
    (hfx : combineAxis n.getScale.x d.x ≠ 0)
    (hr : redo op n = some (op', n')) :
    n'.getScale.x < 0 ∧
    (combineAxis n.getScale.x d.x ≤ -(1/100) →
      n'.getScale.x = combineAxis n.getScale.x d.x) ∧
    (-(1/100) < combineAxis n.getScale.x d.x →
      n'.getScale.x = -(1/100)) := by
  rw [redo_of_relative op n h1 h2 h3] at hr
  obtain ⟨d', f, n3, hparts, hop, hn⟩ := redoRelative_eq_some op n op' n' hr
  obtain ⟨hu, hnorm, hn3⟩ := relParts_eq_some op n d' f n3 hparts
  have hdd : d' = d := Option.some.inj (hu.symm.trans hd)
  subst hdd
  obtain ⟨hnx, _, _⟩ := normalized_eq_some _ _ _ hnorm
  have hcx : n.getScale.x ≠ 0 := ne_of_lt hx
  have hfxval : f.x = combineAxis n.getScale.x d'.x / n.getScale.x := by
    rw [show (combined n.getScale d').x = combineAxis n.getScale.x d'.x
      from rfl] at hnx
    rw [normalizeAxis, if_pos hfx, if_neg hcx] at hnx
    exact (Option.some.inj hnx).symm
  have hprex : n3.getScale.x = combineAxis n.getScale.x d'.x := by
    have hsc : n3.getScale.x = f.x * n.getScale.x := by
      rw [hn3]; rfl
    rw [hsc, hfxval, div_mul_cancel₀ _ hcx]
  have hvneg : combineAxis n.getScale.x d'.x < 0 :=
    lt_of_le_of_ne (combineAxis_nonpos _ _ (le_of_lt hx)) hfx
  have hfinal : n'.getScale.x = enforceMin (1/100) (combineAxis n.getScale.x d'.x) := by
    rw [hn, getScale_setScale, hm]
    show enforceMin (1/100) (snapAxis op.snap f.x n3.getScale.x) = _
    rw [hs, hprex]
    simp [snapAxis]
  rcases le_or_lt (combineAxis n.getScale.x d'.x) (-(1/100)) with hc | hc
  · have he : enforceMin (1/100) (combineAxis n.getScale.x d'.x) =
        combineAxis n.getScale.x d'.x :=
      enforceMin_of_le_neg _ _ (by norm_num) hc
    rw [hfinal, he]
    exact ⟨hvneg, fun _ => rfl, fun hlt => absurd hlt (not_lt.mpr hc)⟩
  · have he : enforceMin (1/100) (combineAxis n.getScale.x d'.x) = -(1/100) :=
      enforceMin_of_neg_gt _ _ hc hvneg
    rw [hfinal, he]
    refine ⟨by norm_num, fun hle => ?_, fun _ => rfl⟩
    linarith

/-- Witness for C8 at a concrete input: current scale (-1,1,1), delta
(1,0,0); the combined value is -2 and the post-redo x scale is -2 < 0. -/
theorem c8_witness :
    (NodeState.getScale ⟨⟨0,0,0⟩, ⟨-2,1,1⟩⟩).x < 0 ∧
    (combineAxis (NodeState.getScale ⟨⟨0,0,0⟩, ⟨-1,1,1⟩⟩).x ((⟨1,0,0⟩ : V3)).x
        ≤ -(1/100) →
      (NodeState.getScale ⟨⟨0,0,0⟩, ⟨-2,1,1⟩⟩).x =
        combineAxis (NodeState.getScale ⟨⟨0,0,0⟩, ⟨-1,1,1⟩⟩).x
          ((⟨1,0,0⟩ : V3)).x) ∧
    (-(1/100) < combineAxis (NodeState.getScale ⟨⟨0,0,0⟩, ⟨-1,1,1⟩⟩).x
        ((⟨1,0,0⟩ : V3)).x →
      (NodeState.getScale ⟨⟨0,0,0⟩, ⟨-2,1,1⟩⟩).x = -(1/100)) :=
  c8_mirror_axis (mk' 0 ⟨⟨0,0,0⟩, ⟨-1,1,1⟩⟩ ⟨1,0,0⟩ false false true)
    ⟨⟨0,0,0⟩, ⟨-1,1,1⟩⟩ ⟨1,0,0⟩
    (mk' 0 ⟨⟨0,0,0⟩, ⟨-1,1,1⟩⟩ ⟨1,0,0⟩ false false true)
    ⟨⟨0,0,0⟩, ⟨-2,1,1⟩⟩ rfl rfl rfl rfl rfl
    (by norm_num [uniformAdjustedScale, NodeState.getScale, mk'])
    (by norm_num [NodeState.getScale])
    (by norm_num [NodeState.getScale, combineAxis_of_nonpos, abs_of_nonpos])
    (by
      simp [redo, redoRelative, relParts, relPreFloor, uniformAdjustedScale,
        normalized, normalizeAxis, combined, combineAxis, snapVec, snapAxis,
        floorVec, enforceMin, mk', NodeState.getScale, NodeState.setScale,
        NodeState.setPosition, NodeState.scaleBy, V3.mul_def, V3.smul_def,
        V3.neg_def, Option.bind]
      try norm_num [abs_of_pos, abs_of_nonneg, abs_of_nonpos]
      try exact ⟨_, _, ⟨rfl, rfl⟩, rfl⟩
      try exact ⟨_, _, _, ⟨rfl, rfl, rfl⟩, rfl, rfl, rfl⟩)

/-- Counterexample to C8 as stated: current scale (-1,1,1) (mirrored x axis)
with delta (-1,0,0) drives the combined value to exactly 0, which lies in
the claimed interval `(-0.01, 0]`; the floor then yields `+0.01` — the
mirrored axis flips to positive instead of being floored to `-0.01`. -/
theorem c8_counterexample :
    (NodeState.getScale ⟨⟨0,0,0⟩, ⟨-1,1,1⟩⟩).x < 0 ∧
    (redo (mk' 0 ⟨⟨0,0,0⟩, ⟨-1,1,1⟩⟩ ⟨-1,0,0⟩ false false true)
        ⟨⟨0,0,0⟩, ⟨-1,1,1⟩⟩).map (fun q => q.2.getScale.x) = some (1/100) ∧
    (0 : ℚ) < 1/100 := by
  refine ⟨by norm_num [NodeState.getScale], ?_, by norm_num⟩
  simp [redo, redoRelative, relParts, relPreFloor, uniformAdjustedScale,
    normalized, normalizeAxis, combined, combineAxis, snapVec, snapAxis,
    floorVec, enforceMin, mk', NodeState.getScale, NodeState.setScale,
    NodeState.setPosition, NodeState.scaleBy, V3.mul_def, V3.smul_def,
    V3.neg_def, Option.bind]
  try norm_num [abs_of_pos, abs_of_nonneg, abs_of_nonpos]
  try exact ⟨_, _, ⟨rfl, rfl⟩, rfl⟩
  try exact ⟨_, _, _, ⟨rfl, rfl, rfl⟩, rfl, rfl, rfl⟩

end ScaleOperation
